import Mathlib

/-!
Verification development for the `mapwatcher` tool (`src/main.rs`).

The tool has two parts:
* a record parser (`Map::parse_from_line_iterator`) that turns the text of
  `/proc/<pid>/smaps` into structured mapping records, and a snapshot parser
  (`Maps::get_maps`) that iterates it;
* a snapshot differ (`Maps::print_diff`) that merges two snapshots sorted by
  start address and reports appeared / disappeared / changed mappings.

The embedding below models the Rust code shallowly:
* a line iterator (`std::str::Lines`) becomes a `List String` that is consumed
  from the front, with the remaining suffix returned explicitly;
* `u64` values become `Nat` with the `< 2 ^ 64` overflow bound enforced at
  parse time exactly where `u64::from_str_radix` / `str::parse::<u64>` enforce
  it; the `as u32` casts become `% 2 ^ 32`;
* fallible code returns `PResult`, which distinguishes a recoverable
  `Result::Err` (`.err`) from a Rust panic (`.panic`, produced by
  `expect`/`assert_eq!`);
* the lines printed by `print_diff` become a list of `Entry` values, where a
  `(was x)` annotation on a changed attribute becomes `some x` and an absent
  annotation becomes `none`.
-/

namespace Mapwatcher

/-- Outcome of a Rust computation that may return a recoverable `Err` or
panic (via `expect` / `assert_eq!`). -/
inductive PResult (α : Type) where
  | ok : α → PResult α
  | err : String → PResult α
  | panic : String → PResult α
deriving DecidableEq, Repr

/-- Split a character list at every character satisfying `p`, keeping empty
segments (the semantics of Rust's `str::split`). `acc` holds the current
segment in reverse. -/
def splitCharsBy (p : Char → Bool) : List Char → List Char → List (List Char)
  | [], acc => [acc.reverse]
  | c :: cs, acc =>
    if p c then acc.reverse :: splitCharsBy p cs []
    else splitCharsBy p cs (c :: acc)

/-- Rust's `str::split` with a single-character pattern (empty segments are
kept). -/
def stringSplit (p : Char → Bool) (s : String) : List String :=
  (splitCharsBy p s.toList []).map String.mk

/-- Rust's `str::split_whitespace`: split at whitespace characters and drop
the empty substrings. -/
def splitWhitespace (s : String) : List String :=
  (stringSplit Char.isWhitespace s).filter (fun t => t ≠ "")

/-- Rust's `str::starts_with` for a string pattern. -/
def strStartsWith (s pre : String) : Bool :=
  pre.toList.isPrefixOf s.toList

/-- Value of a hexadecimal digit character, as accepted by
`u64::from_str_radix(_, 16)`. -/
def hexDigitVal (c : Char) : Option Nat :=
  if '0' ≤ c ∧ c ≤ '9' then some (c.toNat - '0'.toNat)
  else if 'a' ≤ c ∧ c ≤ 'f' then some (c.toNat - 'a'.toNat + 10)
  else if 'A' ≤ c ∧ c ≤ 'F' then some (c.toNat - 'A'.toNat + 10)
  else none

/-- Value of a decimal digit character, as accepted by `str::parse::<u64>`. -/
def decDigitVal (c : Char) : Option Nat :=
  if '0' ≤ c ∧ c ≤ '9' then some (c.toNat - '0'.toNat)
  else none

/-- Digit-accumulation loop of Rust's integer parsing for `u64`: fails with
`invalid digit found in string` on a non-digit and with
`number too large to fit in target type` as soon as the accumulated value
leaves the `u64` range. -/
def parseDigitsAux (radix : Nat) (digit : Char → Option Nat) :
    List Char → Nat → Except String Nat
  | [], acc => .ok acc
  | c :: cs, acc =>
    match digit c with
    | none => .error "invalid digit found in string"
    | some d =>
      let v := acc * radix + d
      if v < 2 ^ 64 then parseDigitsAux radix digit cs v
      else .error "number too large to fit in target type"

/-- Rust's `u64::from_str_radix` / `str::parse::<u64>`: an optional leading
`+` sign followed by at least one digit in the given radix; the empty string
fails with `cannot parse integer from empty string`. -/
def parseU64 (radix : Nat) (digit : Char → Option Nat) (s : String) :
    Except String Nat :=
  match s.toList with
  | [] => .error "cannot parse integer from empty string"
  | ['+'] => .error "invalid digit found in string"
  | '+' :: cs => parseDigitsAux radix digit cs 0
  | cs => parseDigitsAux radix digit cs 0

/-- The `get_hex` closure of `Map::parse_from_line_iterator`:
`u64::from_str_radix(s, 16)` with the error rendered as a string. -/
def get_hex (s : String) : Except String Nat :=
  parseU64 16 hexDigitVal s

/-- The `get_number` closure of `Map::parse_from_line_iterator`: split the
attribute line at whitespace; fewer than two parts yields `0`; otherwise the
second part is parsed as a decimal `u64`, and a parse failure is a Rust panic
(the closure uses `expect`). -/
def get_number (s : String) : PResult Nat :=
  match splitWhitespace s with
  | _ :: v :: _ =>
    match parseU64 10 decDigitVal v with
    | .ok n => .ok n
    | .error _ =>
      .panic ("Expecting a number in this string in second place: " ++ s)
  | _ => .ok 0

/-- `get_number` applied to a list of attribute lines in order, stopping at
the first panic (the Rust struct literal evaluates the fields in source
order). -/
def get_numbers : List String → PResult (List Nat)
  | [] => .ok []
  | s :: ss =>
    match get_number s with
    | .ok n =>
      match get_numbers ss with
      | .ok ns => .ok (n :: ns)
      | .err e => .err e
      | .panic e => .panic e
    | .err e => .err e
    | .panic e => .panic e

/-- The attribute-collection loop of `Map::parse_from_line_iterator`: read
lines into `further_lines` until one starting with `VmFlags` is pushed;
running out of input first is the error `Expecting more lines!` raised by the
`get_line` closure with `first == false`. Returns the collected lines
(terminator included) and the remaining input. -/
def collectFurther : List String → Except String (List String × List String)
  | [] => .error "Expecting more lines!"
  | l :: ls =>
    if strStartsWith l "VmFlags" then .ok ([l], ls)
    else
      match collectFurther ls with
      | .ok (fl, rest) => .ok (l :: fl, rest)
      | .error e => .error e

/-- The `Map` struct of `main.rs` (the Rust field `end` is spelled `end_`
here because `end` is a Lean keyword). `u64` fields are `Nat` bounded by the
parser; the `u32` device fields are `Nat` reduced `% 2 ^ 32` by the parser. -/
structure Map where
  start : Nat
  end_ : Nat
  flags : String
  hex : String
  device_major : Nat
  device_minor : Nat
  number : String
  name : String
  size : Nat
  kernel_page_size : Nat
  mmu_page_size : Nat
  rss : Nat
  pss : Nat
  shared_clean : Nat
  shared_dirty : Nat
  private_clean : Nat
  private_dirty : Nat
  referenced : Nat
  anonymous : Nat
  lazy_free : Nat
  anon_huge_pages : Nat
  shmem_pmd_mapped : Nat
  file_pmd_mapped : Nat
  shared_huge_tlb : Nat
  private_huge_tlb : Nat
  swap : Nat
  swap_pss : Nat
  locked : Nat
  thp_eligible : Bool
  protection_key : Nat
  vmflags : String
deriving DecidableEq, Repr, Inhabited

/-- `Map::parse_from_line_iterator`. The `&mut std::str::Lines` iterator is a
`List String`; the function returns the unconsumed suffix alongside the Rust
result. `Ok(None)` (end of snapshot) is `.ok (none, rest)`, `Ok(Some(map))`
is `.ok (some map, rest)`. The field expressions of the final struct literal
are evaluated in Rust source order, so the `get_hex` calls (recoverable
errors) run before the `get_number` calls (panics). -/
def parse_from_line_iterator (lines : List String) :
    PResult (Option Map × List String) :=
  match lines with
  | [] => .ok (none, [])
  | first_line :: rest =>
    if first_line = "" then .ok (none, rest)
    else
      match splitWhitespace first_line with
      | a0 :: a1 :: a2 :: a3 :: a4 :: nameItems =>
        match stringSplit (fun c => c = '-') a0 with
        | [b0, b1] =>
          match stringSplit (fun c => c = ':') a3 with
          | [d0, d1] =>
            match collectFurther rest with
            | .error e => .err e
            | .ok (fl, rem) =>
              if fl.length < 22 then
                .err "Expected at least 23 lines for entry."
              else
                let name := nameItems.foldl (fun acc s => acc ++ s ++ " ") ""
                match get_hex b0 with
                | .error e => .err e
                | .ok startv =>
                match get_hex b1 with
                | .error e => .err e
                | .ok endv =>
                match get_hex d0 with
                | .error e => .err e
                | .ok dmaj =>
                match get_hex d1 with
                | .error e => .err e
                | .ok dmin =>
                match get_numbers (fl.take 21) with
                | .err e => .err e
                | .panic e => .panic e
                | .ok ns =>
                match (if fl.length = 23 then get_number (fl.getD 21 "")
                       else .ok 0) with
                | .err e => .err e
                | .panic e => .panic e
                | .ok pk =>
                  .ok (some
                    { start := startv
                      end_ := endv
                      flags := a1
                      hex := a2
                      device_major := dmaj % 2 ^ 32
                      device_minor := dmin % 2 ^ 32
                      number := a4
                      name := name
                      size := ns.getD 0 0
                      kernel_page_size := ns.getD 1 0
                      mmu_page_size := ns.getD 2 0
                      rss := ns.getD 3 0
                      pss := ns.getD 4 0
                      shared_clean := ns.getD 5 0
                      shared_dirty := ns.getD 6 0
                      private_clean := ns.getD 7 0
                      private_dirty := ns.getD 8 0
                      referenced := ns.getD 9 0
                      anonymous := ns.getD 10 0
                      lazy_free := ns.getD 11 0
                      anon_huge_pages := ns.getD 12 0
                      shmem_pmd_mapped := ns.getD 13 0
                      file_pmd_mapped := ns.getD 14 0
                      shared_huge_tlb := ns.getD 15 0
                      private_huge_tlb := ns.getD 16 0
                      swap := ns.getD 17 0
                      swap_pss := ns.getD 18 0
                      locked := ns.getD 19 0
                      thp_eligible := ns.getD 20 0 ≠ 0
                      protection_key := pk
                      vmflags := fl.getD (fl.length - 1) "" }, rem)
          | _ => .err ("Found bad devices: " ++ a3)
        | _ => .err ("Found bad bounds: " ++ a0)
      | _ => .err ("Found strange first line: " ++ first_line)

/-- Projection used to state theorems about a successful record parse. -/
def mapOf (r : PResult (Option Map × List String)) : Option Map :=
  match r with
  | .ok (some m, _) => some m
  | _ => none

theorem collectFurther_length {ls fl rest : List String}
    (h : collectFurther ls = .ok (fl, rest)) : rest.length < ls.length := by
  induction ls generalizing fl rest with
  | nil => simp [collectFurther] at h
  | cons l ls ih =>
    rw [collectFurther] at h
    split at h
    · cases h
      simp
    · split at h
      · rename_i fl' rest' heq
        cases h
        exact Nat.lt_trans (ih heq) (by simp)
      · cases h

theorem parse_consumes {lines : List String} {m : Map} {rest : List String}
    (h : parse_from_line_iterator lines = .ok (some m, rest)) :
    rest.length < lines.length := by
  cases lines with
  | nil => simp [parse_from_line_iterator] at h
  | cons first tail =>
    rw [parse_from_line_iterator] at h
    repeat' split at h
    all_goals cases h
    all_goals exact Nat.lt_trans (collectFurther_length (by assumption)) (by simp)

/-- The `Maps` struct of `main.rs` (the capture timestamp is only used by the
excluded printing layer and is omitted). -/
structure Maps where
  pid : Int
  maps : List Map
deriving DecidableEq, Repr

/-- The `loop` of `Maps::get_maps`: repeatedly parse records, pushing each
onto the accumulated vector; a parse error is wrapped as
`Could not parse map: …`; `Ok(None)` ends the snapshot with the records
collected so far. -/
def get_maps_loop (lines : List String) (acc : List Map) : PResult (List Map) :=
  match h : parse_from_line_iterator lines with
  | .err e => .err ("Could not parse map: " ++ e)
  | .panic e => .panic e
  | .ok (none, _) => .ok acc
  | .ok (some m, rest) => get_maps_loop rest (acc ++ [m])
termination_by lines.length
decreasing_by exact parse_consumes h

/-- `Maps::get_maps`, with the file I/O stripped away: the caller supplies
the pid and the lines of `/proc/<pid>/smaps`. -/
def get_maps (pid : Int) (file : List String) : PResult Maps :=
  match get_maps_loop file [] with
  | .ok l => .ok { pid := pid, maps := l }
  | .err e => .err e
  | .panic e => .panic e

/-- One line of `Maps::print_diff` output: `MMAP:` (appeared), `DROP:`
(disappeared) or `CHANGED:`.  For `changed`, a `(was x)` annotation printed
after an attribute is `some x`; an attribute printed without annotation is
`none`. -/
inductive Entry where
  | mmap : (start end_ size rss : Nat) → (name : String) → Entry
  | drop : (start end_ size rss : Nat) → (name : String) → Entry
  | changed : (start end_ : Nat) → (endWas : Option Nat) → (size : Nat) →
      (sizeWas : Option Nat) → (rss : Nat) → (rssWas : Option Nat) →
      (name : String) → Entry
deriving DecidableEq, Repr

/-- The start address carried by a report entry. -/
def Entry.startAddr : Entry → Nat
  | .mmap s _ _ _ _ => s
  | .drop s _ _ _ _ => s
  | .changed s _ _ _ _ _ _ _ => s

/-- The `MMAP:` line printed for a mapping in the current snapshot only. -/
def mmapEntry (m : Map) : Entry :=
  .mmap m.start m.end_ m.size m.rss m.name

/-- The `DROP:` line printed for a mapping in the previous snapshot only. -/
def dropEntry (p : Map) : Entry :=
  .drop p.start p.end_ p.size p.rss p.name

/-- The `CHANGED:` line (if any) printed for a pair of records with the same
start address: each of `end`, `size`, `rss` gets a `(was old)` annotation
exactly when it differs, and the line is printed only if at least one of the
three differs. -/
def changedEntries (m p : Map) : List Entry :=
  let enddiff : Option Nat := if m.end_ ≠ p.end_ then some p.end_ else none
  let sizediff : Option Nat := if m.size ≠ p.size then some p.size else none
  let rssdiff : Option Nat := if m.rss ≠ p.rss then some p.rss else none
  if enddiff.isSome ∨ sizediff.isSome ∨ rssdiff.isSome then
    [.changed m.start m.end_ enddiff m.size sizediff m.rss rssdiff m.name]
  else []

/-- The main `while i < … && j < …` merge loop of `Maps::print_diff`, acting
on the suffixes of the two sorted sequences that the cursors `i` and `j`
point at.  Returns the entries printed by the loop together with the
unconsumed suffix of each sequence (from which the final cursor positions can
be recovered).  An `MMAP:`/`DROP:` line is printed only when the record's
name is nonempty. -/
def mergeLoop : List Map → List Map → List Entry × List Map × List Map
  | [], prev => ([], [], prev)
  | m :: ms, [] => ([], m :: ms, [])
  | m :: ms, p :: ps =>
    if m.start < p.start then
      let r := mergeLoop ms (p :: ps)
      ((if m.name = "" then [] else [mmapEntry m]) ++ r.1, r.2)
    else if p.start < m.start then
      let r := mergeLoop (m :: ms) ps
      ((if p.name = "" then [] else [dropEntry p]) ++ r.1, r.2)
    else
      let r := mergeLoop ms ps
      (changedEntries m p ++ r.1, r.2)
termination_by a b => a.length + b.length

/-- The entries printed by the body of `Maps::print_diff` after the header
line: the main merge loop, then the `MMAP:` tail for the remaining current
records (guarded by `i < self.maps.len()`), then the `DROP:` tail for the
remaining previous records — the latter guarded by the code's literal
condition `j < self.maps.len()`, i.e. the cursor into `prev` compared against
the length of the *current* sequence. -/
def diffEntries (cur prev : List Map) : List Entry :=
  let r := mergeLoop cur prev
  let curRest := r.2.1
  let prevRest := r.2.2
  let t1 := if curRest.isEmpty then [] else
    curRest.filterMap (fun m => if m.name = "" then none else some (mmapEntry m))
  let j := prev.length - prevRest.length
  let t2 := if j < cur.length then
    prevRest.filterMap (fun p => if p.name = "" then none else some (dropEntry p))
  else []
  r.1 ++ t1 ++ t2

/-- `Maps::print_diff`: the `assert_eq!(self.pid, prev.pid)` panics on a pid
mismatch; otherwise the printed report is `diffEntries`. -/
def Maps.print_diff (self prev : Maps) : PResult (List Entry) :=
  if self.pid = prev.pid then .ok (diffEntries self.maps prev.maps)
  else .panic "assertion failed: self.pid == prev.pid"

/-- The sortedness invariant the differ relies on: records strictly ascending
by `start` (the spec makes `start` unique within a snapshot). -/
def SortedByStart (l : List Map) : Prop :=
  l.Pairwise (fun a b => a.start < b.start)

instance (l : List Map) : Decidable (SortedByStart l) :=
  inferInstanceAs (Decidable (l.Pairwise (fun a b : Map => a.start < b.start)))

/-- Iterated record parsing: `ParsesRecords lines ms rest` says that starting
from `lines`, `parse_from_line_iterator` successfully returns the records
`ms` one after the other, leaving `rest` as the unconsumed input. -/
inductive ParsesRecords : List String → List Map → List String → Prop
  | nil (l : List String) : ParsesRecords l [] l
  | cons {l l' r : List String} {m : Map} {ms : List Map} :
      parse_from_line_iterator l = .ok (some m, l') →
      ParsesRecords l' ms r → ParsesRecords l (m :: ms) r

theorem changedEntries_start {m p : Map} {e : Entry}
    (h : e ∈ changedEntries m p) : e.startAddr = m.start := by
  simp only [changedEntries] at h
  repeat' split at h
  all_goals simp_all [Entry.startAddr]

theorem changedEntries_self (m : Map) : changedEntries m m = [] := by
  simp [changedEntries]

theorem mergeLoop_rest_sublist (cur prev : List Map) :
    (mergeLoop cur prev).2.1.Sublist cur ∧ (mergeLoop cur prev).2.2.Sublist prev := by
  induction cur, prev using mergeLoop.induct with
  | case1 prev => simp [mergeLoop]
  | case2 m ms => simp [mergeLoop]
  | case3 m ms p ps h ih =>
    rw [mergeLoop, if_pos h]
    exact ⟨ih.1.cons m, ih.2⟩
  | case4 m ms p ps h h2 ih =>
    rw [mergeLoop, if_neg h, if_pos h2]
    exact ⟨ih.1, ih.2.cons p⟩
  | case5 m ms p ps h h2 ih =>
    rw [mergeLoop, if_neg h, if_neg h2]
    exact ⟨ih.1.cons m, ih.2.cons p⟩

theorem mergeLoop_self (l : List Map) : mergeLoop l l = ([], [], []) := by
  induction l with
  | nil => simp [mergeLoop]
  | cons m ms ih =>
    rw [mergeLoop, if_neg (lt_irrefl m.start), if_neg (lt_irrefl m.start)]
    simp [changedEntries_self, ih]

theorem mergeLoop_appeared {cur prev : List Map} {x : Map}
    (hx : x ∈ cur) (hst : ∀ p ∈ prev, p.start ≠ x.start) (hn : x.name ≠ "") :
    mmapEntry x ∈ (mergeLoop cur prev).1 ∨ x ∈ (mergeLoop cur prev).2.1 := by
  induction cur, prev using mergeLoop.induct with
  | case1 prev => cases hx
  | case2 m ms => rw [mergeLoop]; exact Or.inr hx
  | case3 m ms p ps h ih =>
    rw [mergeLoop, if_pos h]
    rcases List.mem_cons.mp hx with rfl | hx'
    · exact Or.inl (by simp [if_neg hn])
    · rcases ih hx' hst with h1 | h2
      · exact Or.inl (List.mem_append_right _ h1)
      · exact Or.inr h2
  | case4 m ms p ps h h2 ih =>
    rw [mergeLoop, if_neg h, if_pos h2]
    rcases ih hx (fun q hq => hst q (List.mem_cons_of_mem p hq)) with h1 | h3
    · exact Or.inl (List.mem_append_right _ h1)
    · exact Or.inr h3
  | case5 m ms p ps h h2 ih =>
    have heq : m.start = p.start := Nat.le_antisymm (Nat.le_of_not_lt h2) (Nat.le_of_not_lt h)
    rw [mergeLoop, if_neg h, if_neg h2]
    rcases List.mem_cons.mp hx with rfl | hx'
    · exact absurd heq.symm (hst p (List.mem_cons_self p ps))
    · rcases ih hx' (fun q hq => hst q (List.mem_cons_of_mem p hq)) with h1 | h3
      · exact Or.inl (List.mem_append_right _ h1)
      · exact Or.inr h3

theorem mergeLoop_disappeared {cur prev : List Map} {y : Map}
    (hy : y ∈ prev) (hst : ∀ m ∈ cur, m.start ≠ y.start) (hn : y.name ≠ "") :
    dropEntry y ∈ (mergeLoop cur prev).1 ∨ y ∈ (mergeLoop cur prev).2.2 := by
  induction cur, prev using mergeLoop.induct with
  | case1 prev => rw [mergeLoop]; exact Or.inr hy
  | case2 m ms => cases hy
  | case3 m ms p ps h ih =>
    rw [mergeLoop, if_pos h]
    rcases ih hy (fun q hq => hst q (List.mem_cons_of_mem m hq)) with h1 | h3
    · exact Or.inl (List.mem_append_right _ h1)
    · exact Or.inr h3
  | case4 m ms p ps h h2 ih =>
    rw [mergeLoop, if_neg h, if_pos h2]
    rcases List.mem_cons.mp hy with rfl | hy'
    · exact Or.inl (by simp [if_neg hn])
    · rcases ih hy' hst with h1 | h3
      · exact Or.inl (List.mem_append_right _ h1)
      · exact Or.inr h3
  | case5 m ms p ps h h2 ih =>
    have heq : m.start = p.start := Nat.le_antisymm (Nat.le_of_not_lt h2) (Nat.le_of_not_lt h)
    rw [mergeLoop, if_neg h, if_neg h2]
    rcases List.mem_cons.mp hy with rfl | hy'
    · exact absurd heq (hst m (List.mem_cons_self m ms))
    · rcases ih hy' (fun q hq => hst q (List.mem_cons_of_mem m hq)) with h1 | h3
      · exact Or.inl (List.mem_append_right _ h1)
      · exact Or.inr h3

theorem mergeLoop_start_mem {cur prev : List Map} {e : Entry}
    (he : e ∈ (mergeLoop cur prev).1) :
    (∃ m ∈ cur, e.startAddr = m.start) ∨ ∃ p ∈ prev, e.startAddr = p.start := by
  induction cur, prev using mergeLoop.induct with
  | case1 prev => simp [mergeLoop] at he
  | case2 m ms => simp [mergeLoop] at he
  | case3 m ms p ps h ih =>
    rw [mergeLoop, if_pos h] at he
    rcases List.mem_append.mp he with h1 | h2
    · have : e = mmapEntry m := by
        by_cases hnm : m.name = "" <;> simp [hnm] at h1
        exact h1
      exact Or.inl ⟨m, List.mem_cons_self m ms, by rw [this]; rfl⟩
    · rcases ih h2 with ⟨m', hm', hs⟩ | ⟨p', hp', hs⟩
      · exact Or.inl ⟨m', List.mem_cons_of_mem m hm', hs⟩
      · exact Or.inr ⟨p', hp', hs⟩
  | case4 m ms p ps h h2 ih =>
    rw [mergeLoop, if_neg h, if_pos h2] at he
    rcases List.mem_append.mp he with h1 | h3
    · have : e = dropEntry p := by
        by_cases hnp : p.name = "" <;> simp [hnp] at h1
        exact h1
      exact Or.inr ⟨p, List.mem_cons_self p ps, by rw [this]; rfl⟩
    · rcases ih h3 with ⟨m', hm', hs⟩ | ⟨p', hp', hs⟩
      · exact Or.inl ⟨m', hm', hs⟩
      · exact Or.inr ⟨p', List.mem_cons_of_mem p hp', hs⟩
  | case5 m ms p ps h h2 ih =>
    rw [mergeLoop, if_neg h, if_neg h2] at he
    rcases List.mem_append.mp he with h1 | h3
    · exact Or.inl ⟨m, List.mem_cons_self m ms, changedEntries_start h1⟩
    · rcases ih h3 with ⟨m', hm', hs⟩ | ⟨p', hp', hs⟩
      · exact Or.inl ⟨m', List.mem_cons_of_mem m hm', hs⟩
      · exact Or.inr ⟨p', List.mem_cons_of_mem p hp', hs⟩

theorem mergeLoop_match (cur prev : List Map) :
    SortedByStart cur → SortedByStart prev →
    ∀ x y : Map, x ∈ cur → y ∈ prev → x.start = y.start →
    (∀ e ∈ changedEntries x y, e ∈ (mergeLoop cur prev).1)
    ∧ (∀ e ∈ (mergeLoop cur prev).1, e.startAddr = x.start →
        e ∈ changedEntries x y)
    ∧ (∀ r ∈ (mergeLoop cur prev).2.1, r.start ≠ x.start)
    ∧ (∀ r ∈ (mergeLoop cur prev).2.2, r.start ≠ x.start) := by
  induction cur, prev using mergeLoop.induct with
  | case1 prev =>
    intro _ _ x y hx
    cases hx
  | case2 m ms =>
    intro _ _ x y _ hy
    cases hy
  | case3 m ms p ps h ih =>
    intro hc hp x y hx hy hs
    have hpy : p.start ≤ y.start := by
      rcases List.mem_cons.mp hy with rfl | hy'
      · exact le_refl _
      · exact le_of_lt (List.rel_of_pairwise_cons hp hy')
    have hmx : m.start < x.start := by
      rw [hs]
      exact lt_of_lt_of_le h hpy
    have hx' : x ∈ ms := by
      rcases List.mem_cons.mp hx with rfl | hx'
      · exact absurd hmx (lt_irrefl _)
      · exact hx'
    obtain ⟨ih1, ih2, ih3, ih4⟩ := ih (List.Pairwise.of_cons hc) hp x y hx' hy hs
    rw [mergeLoop, if_pos h]
    refine ⟨fun e he => List.mem_append_right _ (ih1 e he), ?_, ih3, ih4⟩
    intro e he hes
    rcases List.mem_append.mp he with h1 | h2
    · exfalso
      have hem : e = mmapEntry m := by
        by_cases hnm : m.name = "" <;> simp [hnm] at h1
        exact h1
      rw [hem] at hes
      exact absurd hes (Nat.ne_of_lt hmx)
    · exact ih2 e h2 hes
  | case4 m ms p ps h h2 ih =>
    intro hc hp x y hx hy hs
    have hmx : m.start ≤ x.start := by
      rcases List.mem_cons.mp hx with rfl | hx'
      · exact le_refl _
      · exact le_of_lt (List.rel_of_pairwise_cons hc hx')
    have hpy : p.start < y.start := by
      rw [← hs]
      exact lt_of_lt_of_le h2 hmx
    have hy' : y ∈ ps := by
      rcases List.mem_cons.mp hy with rfl | hy'
      · exact absurd hpy (lt_irrefl _)
      · exact hy'
    obtain ⟨ih1, ih2, ih3, ih4⟩ := ih hc (List.Pairwise.of_cons hp) x y hx hy' hs
    rw [mergeLoop, if_neg h, if_pos h2]
    refine ⟨fun e he => List.mem_append_right _ (ih1 e he), ?_, ih3, ih4⟩
    intro e he hes
    rcases List.mem_append.mp he with h1 | h3
    · exfalso
      have hep : e = dropEntry p := by
        by_cases hnp : p.name = "" <;> simp [hnp] at h1
        exact h1
      rw [hep] at hes
      have : p.start = x.start := hes
      rw [hs] at this
      exact absurd this (Nat.ne_of_lt hpy)
    · exact ih2 e h3 hes
  | case5 m ms p ps h h2 ih =>
    intro hc hp x y hx hy hs
    have heq : m.start = p.start :=
      Nat.le_antisymm (Nat.le_of_not_lt h2) (Nat.le_of_not_lt h)
    rw [mergeLoop, if_neg h, if_neg h2]
    by_cases hxm : x.start = m.start
    · have hxeq : x = m := by
        rcases List.mem_cons.mp hx with rfl | hx'
        · rfl
        · exact absurd hxm (Nat.ne_of_gt (List.rel_of_pairwise_cons hc hx'))
      have hyp : y.start = p.start := by
        rw [← hs, hxm, heq]
      have hyeq : y = p := by
        rcases List.mem_cons.mp hy with rfl | hy'
        · rfl
        · exact absurd hyp (Nat.ne_of_gt (List.rel_of_pairwise_cons hp hy'))
      subst hxeq
      subst hyeq
      refine ⟨fun e he => List.mem_append_left _ he, ?_, ?_, ?_⟩
      · intro e he hes
        rcases List.mem_append.mp he with h1 | h3
        · exact h1
        · exfalso
          rcases mergeLoop_start_mem h3 with ⟨m', hm', hs'⟩ | ⟨p', hp', hs'⟩
          · rw [hes] at hs'
            exact absurd hs'
              (Nat.ne_of_lt (List.rel_of_pairwise_cons hc hm'))
          · rw [hes, heq] at hs'
            exact absurd hs'
              (Nat.ne_of_lt (List.rel_of_pairwise_cons hp hp'))
      · intro r hr
        have hrm : r ∈ ms := (mergeLoop_rest_sublist ms ps).1.subset hr
        exact (Nat.ne_of_gt (List.rel_of_pairwise_cons hc hrm))
      · intro r hr
        have hrp : r ∈ ps := (mergeLoop_rest_sublist ms ps).2.subset hr
        rw [heq]
        exact (Nat.ne_of_gt (List.rel_of_pairwise_cons hp hrp))
    · have hx' : x ∈ ms := by
        rcases List.mem_cons.mp hx with rfl | hx'
        · exact absurd rfl hxm
        · exact hx'
      have hy' : y ∈ ps := by
        rcases List.mem_cons.mp hy with rfl | hy'
        · exfalso
          apply hxm
          rw [hs, heq]
        · exact hy'
      obtain ⟨ih1, ih2, ih3, ih4⟩ :=
        ih (List.Pairwise.of_cons hc) (List.Pairwise.of_cons hp) x y hx' hy' hs
      refine ⟨fun e he => List.mem_append_right _ (ih1 e he), ?_, ih3, ih4⟩
      intro e he hes
      rcases List.mem_append.mp he with h1 | h3
      · exfalso
        apply hxm
        rw [← hes]
        exact (changedEntries_start h1).symm ▸ rfl
      · exact ih2 e h3 hes

theorem diffEntries_eq (cur prev : List Map) :
    diffEntries cur prev =
      (mergeLoop cur prev).1
      ++ (if (mergeLoop cur prev).2.1.isEmpty then [] else
            (mergeLoop cur prev).2.1.filterMap
              (fun m => if m.name = "" then none else some (mmapEntry m)))
      ++ (if prev.length - (mergeLoop cur prev).2.2.length < cur.length then
            (mergeLoop cur prev).2.2.filterMap
              (fun p => if p.name = "" then none else some (dropEntry p))
          else []) := rfl

theorem diffEntries_appeared {cur prev : List Map} {x : Map}
    (hx : x ∈ cur) (hst : ∀ p ∈ prev, p.start ≠ x.start) (hn : x.name ≠ "") :
    mmapEntry x ∈ diffEntries cur prev := by
  rw [diffEntries_eq]
  rcases mergeLoop_appeared hx hst hn with h1 | h2
  · exact List.mem_append_left _ (List.mem_append_left _ h1)
  · have hne : ¬((mergeLoop cur prev).2.1.isEmpty = true) := by
      simp [List.isEmpty_iff]
      exact List.ne_nil_of_mem h2
    refine List.mem_append_left _ (List.mem_append_right _ ?_)
    rw [if_neg hne]
    exact List.mem_filterMap.mpr ⟨x, h2, by rw [if_neg hn]⟩

theorem diffEntries_disappeared {cur prev : List Map} {y : Map}
    (hlen : prev.length ≤ cur.length)
    (hy : y ∈ prev) (hst : ∀ m ∈ cur, m.start ≠ y.start) (hn : y.name ≠ "") :
    dropEntry y ∈ diffEntries cur prev := by
  rw [diffEntries_eq]
  rcases mergeLoop_disappeared hy hst hn with h1 | h2
  · exact List.mem_append_left _ (List.mem_append_left _ h1)
  · have hsub : (mergeLoop cur prev).2.2.length ≤ prev.length :=
      (mergeLoop_rest_sublist cur prev).2.length_le
    have hpos : 1 ≤ (mergeLoop cur prev).2.2.length :=
      List.length_pos.mpr (List.ne_nil_of_mem h2)
    have hguard : prev.length - (mergeLoop cur prev).2.2.length < cur.length := by
      omega
    refine List.mem_append_right _ ?_
    rw [if_pos hguard]
    exact List.mem_filterMap.mpr ⟨y, h2, by rw [if_neg hn]⟩

theorem diffEntries_matched_start {cur prev : List Map} {x y : Map}
    (hc : SortedByStart cur) (hp : SortedByStart prev)
    (hx : x ∈ cur) (hy : y ∈ prev) (hs : x.start = y.start) :
    ∀ e ∈ diffEntries cur prev, e.startAddr = x.start →
      e ∈ changedEntries x y := by
  obtain ⟨mm1, mm2, mm3, mm4⟩ := mergeLoop_match cur prev hc hp x y hx hy hs
  intro e he hes
  rw [diffEntries_eq] at he
  rcases List.mem_append.mp he with he' | ht2
  · rcases List.mem_append.mp he' with hes' | ht1
    · exact mm2 e hes' hes
    · exfalso
      split at ht1
      · cases ht1
      · obtain ⟨r, hr, hfr⟩ := List.mem_filterMap.mp ht1
        by_cases hnr : r.name = ""
        · rw [if_pos hnr] at hfr
          cases hfr
        · rw [if_neg hnr] at hfr
          have : e = mmapEntry r := by injection hfr with hfr'; exact hfr'.symm
          rw [this] at hes
          exact absurd hes (mm3 r hr)
  · exfalso
    split at ht2
    · obtain ⟨r, hr, hfr⟩ := List.mem_filterMap.mp ht2
      by_cases hnr : r.name = ""
      · rw [if_pos hnr] at hfr
        cases hfr
      · rw [if_neg hnr] at hfr
        have : e = dropEntry r := by injection hfr with hfr'; exact hfr'.symm
        rw [this] at hes
        exact absurd hes (mm4 r hr)
    · cases ht2

theorem diffEntries_matched_mem {cur prev : List Map} {x y : Map}
    (hc : SortedByStart cur) (hp : SortedByStart prev)
    (hx : x ∈ cur) (hy : y ∈ prev) (hs : x.start = y.start) :
    ∀ e ∈ changedEntries x y, e ∈ diffEntries cur prev := by
  obtain ⟨mm1, _, _, _⟩ := mergeLoop_match cur prev hc hp x y hx hy hs
  intro e he
  rw [diffEntries_eq]
  exact List.mem_append_left _ (List.mem_append_left _ (mm1 e he))

theorem diffEntries_self (l : List Map) : diffEntries l l = [] := by
  rw [diffEntries_eq, mergeLoop_self]
  simp

theorem get_maps_loop_step {lines : List String} {acc : List Map} {m : Map}
    {rest : List String}
    (h1 : parse_from_line_iterator lines = .ok (some m, rest)) :
    get_maps_loop lines acc = get_maps_loop rest (acc ++ [m]) := by
  rw [get_maps_loop, h1]

theorem get_maps_loop_none {lines rest : List String} {acc : List Map}
    (h1 : parse_from_line_iterator lines = .ok (none, rest)) :
    get_maps_loop lines acc = .ok acc := by
  rw [get_maps_loop, h1]

theorem get_maps_loop_err {lines : List String} {acc : List Map} {e : String}
    (h1 : parse_from_line_iterator lines = .err e) :
    get_maps_loop lines acc = .err ("Could not parse map: " ++ e) := by
  rw [get_maps_loop, h1]

theorem get_maps_loop_records {lines : List String} {ms : List Map}
    {rest : List String} (h : ParsesRecords lines ms rest) :
    ∀ acc, get_maps_loop lines acc = get_maps_loop rest (acc ++ ms) := by
  induction h with
  | nil l =>
    intro acc
    simp
  | cons hp _ ih =>
    intro acc
    rw [get_maps_loop_step hp, ih]
    simp

theorem parse_ok_some_inv {lines : List String} {m : Map} {rem : List String}
    (h : parse_from_line_iterator lines = .ok (some m, rem)) :
    ∃ first rest a0 a1 a2 a3 a4 ni b0 b1 d0 d1 fl s e dM dm ns pk,
      lines = first :: rest ∧
      ¬ first = "" ∧
      splitWhitespace first = a0 :: a1 :: a2 :: a3 :: a4 :: ni ∧
      stringSplit (fun c => c = '-') a0 = [b0, b1] ∧
      stringSplit (fun c => c = ':') a3 = [d0, d1] ∧
      collectFurther rest = .ok (fl, rem) ∧
      ¬ fl.length < 22 ∧
      get_hex b0 = .ok s ∧ get_hex b1 = .ok e ∧
      get_hex d0 = .ok dM ∧ get_hex d1 = .ok dm ∧
      get_numbers (fl.take 21) = .ok ns ∧
      (if fl.length = 23 then get_number (fl.getD 21 "") else .ok 0) = .ok pk ∧
      m = { start := s
            end_ := e
            flags := a1
            hex := a2
            device_major := dM % 2 ^ 32
            device_minor := dm % 2 ^ 32
            number := a4
            name := ni.foldl (fun acc t => acc ++ t ++ " ") ""
            size := ns.getD 0 0
            kernel_page_size := ns.getD 1 0
            mmu_page_size := ns.getD 2 0
            rss := ns.getD 3 0
            pss := ns.getD 4 0
            shared_clean := ns.getD 5 0
            shared_dirty := ns.getD 6 0
            private_clean := ns.getD 7 0
            private_dirty := ns.getD 8 0
            referenced := ns.getD 9 0
            anonymous := ns.getD 10 0
            lazy_free := ns.getD 11 0
            anon_huge_pages := ns.getD 12 0
            shmem_pmd_mapped := ns.getD 13 0
            file_pmd_mapped := ns.getD 14 0
            shared_huge_tlb := ns.getD 15 0
            private_huge_tlb := ns.getD 16 0
            swap := ns.getD 17 0
            swap_pss := ns.getD 18 0
            locked := ns.getD 19 0
            thp_eligible := ns.getD 20 0 ≠ 0
            protection_key := pk
            vmflags := fl.getD (fl.length - 1) "" } := by
  cases lines with
  | nil => simp [parse_from_line_iterator] at h
  | cons first rest =>
    rw [parse_from_line_iterator] at h
    repeat' split at h
    all_goals cases h
    exact ⟨first, rest, _, _, _, _, _, _, _, _, _, _, _, _, _, _, _, _, _,
      rfl, by assumption, by assumption, by assumption, by assumption,
      by assumption, by assumption, by assumption, by assumption,
      by assumption, by assumption, by assumption, by assumption, rfl⟩

/-- A concrete mapping record with the given start, end, size, rss and name,
all other fields zero, used in the concrete evaluations below. -/
def mkRecord (st en sz rs : Nat) (nm : String) : Map :=
  { start := st, end_ := en, flags := "", hex := "", device_major := 0,
    device_minor := 0, number := "", name := nm, size := sz,
    kernel_page_size := 0, mmu_page_size := 0, rss := rs, pss := 0,
    shared_clean := 0, shared_dirty := 0, private_clean := 0,
    private_dirty := 0, referenced := 0, anonymous := 0, lazy_free := 0,
    anon_huge_pages := 0, shmem_pmd_mapped := 0, file_pmd_mapped := 0,
    shared_huge_tlb := 0, private_huge_tlb := 0, swap := 0, swap_pss := 0,
    locked := 0, thp_eligible := false, protection_key := 0, vmflags := "" }

/-- Claim C8: diffing any snapshot against an identical copy of itself
(equal pid, identical record sequence) yields an empty change report: no
Appeared, Disappeared or Changed entry is produced. -/
theorem C8_diff_self_empty (s : Maps) : Maps.print_diff s s = .ok [] := by
  rw [Maps.print_diff, if_pos rfl, diffEntries_self]

/-- Current snapshot for the claim C1 evaluation. -/
def C1cur : Maps := ⟨42, [mkRecord 4096 8192 4 4 "[a]"]⟩

/-- Previous snapshot for the claim C1 evaluation: one extra named record at
start 8192 beyond the shared record at 4096. -/
def C1prev : Maps :=
  ⟨42, [mkRecord 4096 8192 4 4 "[a]", mkRecord 8192 12288 4 4 "[b]"]⟩

/-- Claim C1 (evaluation of the code at the failing input): the previous
snapshot has a named record at start 8192 that is absent from the current
snapshot and survives the main merge loop, yet the report is empty — the
remaining previous-sequence tail is not reported as Disappeared, because the
tail guard tests the cursor `j` against the length of the current sequence
(`self.maps.len()`) instead of the previous one. -/
theorem C1_prev_tail_lost :
    Maps.print_diff C1cur C1prev = .ok []
    ∧ C1prev.maps.map (fun m => (m.start, m.name)) =
        [(4096, "[a]"), (8192, "[b]")]
    ∧ C1cur.maps.map Map.start = [4096] := by
  refine ⟨?_, rfl, rfl⟩
  simp [Maps.print_diff, diffEntries, mergeLoop, changedEntries, C1cur,
    C1prev, mkRecord]

/-- Current snapshot for the claim C2 counterexample. -/
def C2cur : Maps := ⟨7, [mkRecord 5 6 1 1 "[x]"]⟩

/-- Previous snapshot for the claim C2 counterexample: an anonymous record at
start 1 and a named record at start 7, both absent from the current
snapshot. -/
def C2prev : Maps :=
  ⟨7, [mkRecord 1 2 1 1 "", mkRecord 5 6 1 1 "[x]", mkRecord 7 8 1 1 "[y]"]⟩

/-- Claim C2 (counterexample): both snapshots have pid 7 and are sorted
ascending by start; the start addresses 1 and 7 are each present in exactly
one snapshot (the previous one), yet the report is empty, so neither appears
as Disappeared — address 1 because its record's name is empty (suppression),
address 7 because the previous-tail guard compares the cursor against the
current sequence's length. -/
theorem C2_counterexample :
    Maps.print_diff C2cur C2prev = .ok []
    ∧ SortedByStart C2cur.maps ∧ SortedByStart C2prev.maps
    ∧ (C2prev.maps.filter
        (fun p => C2cur.maps.all (fun m => m.start != p.start))).map
          (fun m => (m.start, m.name)) = [(1, ""), (7, "[y]")] := by
  refine ⟨?_, by decide, by decide, by decide⟩
  simp [Maps.print_diff, diffEntries, mergeLoop, changedEntries, C2cur,
    C2prev, mkRecord]

/-- Claim C2 (amended): for snapshots with equal pid sorted ascending by
start, every start address whose record has a nonempty name present only in
the current snapshot appears in the report as Appeared; every such address
present only in the previous snapshot appears as Disappeared provided the
previous snapshot has no more records than the current one (the code's
previous-tail guard tests the cursor against the current sequence's length);
and no start address present in both snapshots with identical end, size and
rss appears in the report at all. -/
theorem C2_amended_merge_completeness (cur prev : Maps) (es : List Entry)
    (hpid : cur.pid = prev.pid)
    (hc : SortedByStart cur.maps) (hp : SortedByStart prev.maps)
    (hdiff : Maps.print_diff cur prev = .ok es) :
    (∀ m ∈ cur.maps, m.name ≠ "" → (∀ p ∈ prev.maps, p.start ≠ m.start) →
      mmapEntry m ∈ es)
    ∧ (prev.maps.length ≤ cur.maps.length →
       ∀ p ∈ prev.maps, p.name ≠ "" → (∀ m ∈ cur.maps, m.start ≠ p.start) →
      dropEntry p ∈ es)
    ∧ (∀ m ∈ cur.maps, ∀ p ∈ prev.maps, m.start = p.start →
       m.end_ = p.end_ → m.size = p.size → m.rss = p.rss →
       ∀ e ∈ es, e.startAddr ≠ m.start) := by
  rw [Maps.print_diff, if_pos hpid] at hdiff
  injection hdiff with hdiff
  subst hdiff
  refine ⟨?_, ?_, ?_⟩
  · intro m hm hn hst
    exact diffEntries_appeared hm hst hn
  · intro hlen p hpmem hn hst
    exact diffEntries_disappeared hlen hpmem hst hn
  · intro m hm p hpmem hs he hsz hrss e hemem heq
    have h1 := diffEntries_matched_start hc hp hm hpmem hs e hemem heq
    have h2 : changedEntries m p = [] := by
      simp [changedEntries, he, hsz, hrss]
    rw [h2] at h1
    cases h1

/-- Claim C2 (witness): at concrete sorted snapshots of equal length, the
amended completeness theorem yields the Appeared entry for the record only in
the current snapshot and the Disappeared entry for the record only in the
previous one. -/
theorem C2_witness :
    mmapEntry (mkRecord 1 2 1 1 "[a]") ∈
      [mmapEntry (mkRecord 1 2 1 1 "[a]"), dropEntry (mkRecord 2 3 1 1 "[b]")]
    ∧ dropEntry (mkRecord 2 3 1 1 "[b]") ∈
      [mmapEntry (mkRecord 1 2 1 1 "[a]"),
       dropEntry (mkRecord 2 3 1 1 "[b]")] := by
  have hdiff : Maps.print_diff ⟨3, [mkRecord 1 2 1 1 "[a]"]⟩
      ⟨3, [mkRecord 2 3 1 1 "[b]"]⟩ =
      .ok [mmapEntry (mkRecord 1 2 1 1 "[a]"),
           dropEntry (mkRecord 2 3 1 1 "[b]")] := by
    simp [Maps.print_diff, diffEntries, mergeLoop, changedEntries, mkRecord,
      mmapEntry, dropEntry]
  obtain ⟨h1, h2, _⟩ := C2_amended_merge_completeness
    ⟨3, [mkRecord 1 2 1 1 "[a]"]⟩ ⟨3, [mkRecord 2 3 1 1 "[b]"]⟩
    [mmapEntry (mkRecord 1 2 1 1 "[a]"), dropEntry (mkRecord 2 3 1 1 "[b]")]
    rfl (by decide) (by decide) hdiff
  exact ⟨h1 _ (by decide) (by decide) (by decide),
    h2 (by decide) _ (by decide) (by decide) (by decide)⟩

/-- Claim C3: for every start address present in both snapshots, if any of
end, size, rss differ between the current and previous record, the report
contains a Changed entry carrying an old-value annotation for exactly those
attributes that differ (unchanged attributes carry `none`); if none differ,
that address produces no report entry. -/
theorem C3_changed_annotations (cur prev : Maps) (es : List Entry)
    (hpid : cur.pid = prev.pid)
    (hc : SortedByStart cur.maps) (hp : SortedByStart prev.maps)
    (hdiff : Maps.print_diff cur prev = .ok es)
    (x y : Map) (hx : x ∈ cur.maps) (hy : y ∈ prev.maps)
    (hs : x.start = y.start) :
    ((x.end_ ≠ y.end_ ∨ x.size ≠ y.size ∨ x.rss ≠ y.rss) →
      Entry.changed x.start x.end_
        (if x.end_ ≠ y.end_ then some y.end_ else none)
        x.size (if x.size ≠ y.size then some y.size else none)
        x.rss (if x.rss ≠ y.rss then some y.rss else none) x.name ∈ es)
    ∧ (x.end_ = y.end_ → x.size = y.size → x.rss = y.rss →
        ∀ e ∈ es, e.startAddr ≠ x.start) := by
  rw [Maps.print_diff, if_pos hpid] at hdiff
  injection hdiff with hdiff
  subst hdiff
  constructor
  · intro hd
    have hcond : (if x.end_ ≠ y.end_ then some y.end_ else none).isSome = true
        ∨ (if x.size ≠ y.size then some y.size else none).isSome = true
        ∨ (if x.rss ≠ y.rss then some y.rss else none).isSome = true := by
      rcases hd with hd | hd | hd
      · exact Or.inl (by rw [if_pos hd]; rfl)
      · exact Or.inr (Or.inl (by rw [if_pos hd]; rfl))
      · exact Or.inr (Or.inr (by rw [if_pos hd]; rfl))
    have hmem : Entry.changed x.start x.end_
        (if x.end_ ≠ y.end_ then some y.end_ else none)
        x.size (if x.size ≠ y.size then some y.size else none)
        x.rss (if x.rss ≠ y.rss then some y.rss else none) x.name ∈
          changedEntries x y := by
      simp only [changedEntries]
      rw [if_pos hcond]
      exact List.mem_singleton.mpr rfl
    exact diffEntries_matched_mem hc hp hx hy hs _ hmem
  · intro he hsz hrss e hemem heq
    have h1 := diffEntries_matched_start hc hp hx hy hs e hemem heq
    have h2 : changedEntries x y = [] := by
      simp [changedEntries, he, hsz, hrss]
    rw [h2] at h1
    cases h1

/-- Claim C3 (witness): for a mapping present in both snapshots with rss 100
before and 150 after and all else identical, the Changed entry carries
exactly one old-value annotation, on rss (old 100, new 150). -/
theorem C3_witness :
    Entry.changed 4096 8192 none 4 none 150 (some 100) "[a]" ∈
      [Entry.changed 4096 8192 none 4 none 150 (some 100) "[a]"] := by
  have hdiff : Maps.print_diff ⟨9, [mkRecord 4096 8192 4 150 "[a]"]⟩
      ⟨9, [mkRecord 4096 8192 4 100 "[a]"]⟩ =
      .ok [Entry.changed 4096 8192 none 4 none 150 (some 100) "[a]"] := by
    simp [Maps.print_diff, diffEntries, mergeLoop, changedEntries, mkRecord]
  have h := (C3_changed_annotations
    ⟨9, [mkRecord 4096 8192 4 150 "[a]"]⟩
    ⟨9, [mkRecord 4096 8192 4 100 "[a]"]⟩
    [Entry.changed 4096 8192 none 4 none 150 (some 100) "[a]"]
    rfl (by decide) (by decide) hdiff
    (mkRecord 4096 8192 4 150 "[a]") (mkRecord 4096 8192 4 100 "[a]")
    (by decide) (by decide) rfl).1 (by decide)
  exact h

theorem mapOf_isSome {r : PResult (Option Map × List String)}
    (h : (mapOf r).isSome = true) : ∃ m rem, r = .ok (some m, rem) := by
  cases r with
  | ok p =>
    obtain ⟨o, rem⟩ := p
    cases o with
    | none => simp [mapOf] at h
    | some m => exact ⟨m, rem, rfl⟩
  | err e => simp [mapOf] at h
  | panic e => simp [mapOf] at h

/-- A well-formed attribute block: 21 numeric attribute lines plus the
VmFlags terminator, 22 collected lines in all (the positional labels do not
matter to the parser). -/
def attrBlock22 : List String := List.replicate 21 "A: 7 kB" ++ ["VmFlags: rd"]

/-- A well-formed attribute block with one extra numeric line: 23 collected
lines in all, so the 22nd line feeds the protection key. -/
def attrBlock23 : List String := List.replicate 22 "B: 9 kB" ++ ["VmFlags: rd"]

/-- Claim C4 (counterexample): a header with 7 tokens — 2 name tokens — is
parsed with name `"/lib/foo so "`, which carries a trailing space and is
therefore not the plain single-space join `"/lib/foo so"` claimed. -/
theorem C4_counterexample :
    Option.map Map.name (mapOf (parse_from_line_iterator
      ("1000-2000 r--p 00000000 00:00 0 /lib/foo so" :: attrBlock22)))
      = some "/lib/foo so "
    ∧ "/lib/foo so " ≠ "/lib/foo so" := ⟨rfl, by decide⟩

/-- Claim C4 (amended): for every successfully parsed record, the name field
equals the concatenation of the header tokens beyond the fifth, each followed
by one space — i.e. the tokens joined with single spaces plus a trailing
space whenever any name token exists; when the header has exactly 5 tokens
the name is the empty string. -/
theorem C4_amended_name_join (first : String) (rest : List String)
    (h : (mapOf (parse_from_line_iterator (first :: rest))).isSome = true) :
    Option.map Map.name (mapOf (parse_from_line_iterator (first :: rest)))
      = some (((splitWhitespace first).drop 5).foldl
          (fun acc t => acc ++ t ++ " ") "")
    ∧ ((splitWhitespace first).length = 5 →
        Option.map Map.name (mapOf (parse_from_line_iterator (first :: rest)))
          = some "") := by
  obtain ⟨m, rem, hr⟩ := mapOf_isSome h
  obtain ⟨f', r', a0, a1, a2, a3, a4, ni, b0, b1, d0, d1, fl, s, e, dM, dm,
    ns, pk, hline, -, hsplit, -, -, -, -, -, -, -, -, -, -, hm⟩ :=
    parse_ok_some_inv hr
  injection hline with hf hrest
  subst hf
  subst hrest
  have hni : (splitWhitespace first).drop 5 = ni := by
    rw [hsplit]
    rfl
  have hname : Option.map Map.name
      (mapOf (parse_from_line_iterator (first :: rest)))
      = some (ni.foldl (fun acc t => acc ++ t ++ " ") "") := by
    rw [hr, hm]
    rfl
  constructor
  · rw [hname, hni]
  · intro hlen5
    rw [hsplit] at hlen5
    simp only [List.length_cons] at hlen5
    have hni0 : ni = [] := List.eq_nil_of_length_eq_zero (by omega)
    rw [hname, hni0]
    rfl

/-- Claim C4 (witness): at a concrete header with exactly 5 tokens the
amended theorem yields the empty name, after discharging the
successful-parse hypothesis by evaluation. -/
theorem C4_witness :
    Option.map Map.name (mapOf (parse_from_line_iterator
      ("1000-2000 r--p 00000000 00:00 0" :: attrBlock22))) = some "" := by
  have h := C4_amended_name_join "1000-2000 r--p 00000000 00:00 0"
    attrBlock22 (by rfl)
  exact h.2 (by rfl)

/-- Claim C7: for every successfully parsed record, if exactly 22 attribute
lines (terminator included) were collected then the protection key is 0, and
if exactly 23 were collected then it equals the value parsed from the 22nd
attribute line. -/
theorem C7_protection_key (first : String) (rest fl rem2 : List String)
    (hcf : collectFurther rest = .ok (fl, rem2))
    (h : (mapOf (parse_from_line_iterator (first :: rest))).isSome = true) :
    (fl.length = 22 →
      Option.map Map.protection_key
        (mapOf (parse_from_line_iterator (first :: rest))) = some 0)
    ∧ (fl.length = 23 →
      ∃ n, get_number (fl.getD 21 "") = .ok n ∧
        Option.map Map.protection_key
          (mapOf (parse_from_line_iterator (first :: rest))) = some n) := by
  obtain ⟨m, rem, hr⟩ := mapOf_isSome h
  obtain ⟨f', r', a0, a1, a2, a3, a4, ni, b0, b1, d0, d1, fl', s, e, dM, dm,
    ns, pk, hline, -, -, -, -, hcf', -, -, -, -, -, -, hpk, hm⟩ :=
    parse_ok_some_inv hr
  injection hline with hf hrest
  subst hf
  subst hrest
  have hfl : fl' = fl ∧ rem = rem2 := by
    rw [hcf] at hcf'
    injection hcf' with hcf''
    injection hcf'' with h1 h2
    exact ⟨h1.symm, h2.symm⟩
  obtain ⟨hfl1, -⟩ := hfl
  subst hfl1
  have hproj : Option.map Map.protection_key
      (mapOf (parse_from_line_iterator (first :: rest))) = some pk := by
    rw [hr, hm]
    rfl
  constructor
  · intro h22
    rw [h22] at hpk
    rw [if_neg (by omega : ¬(22 : Nat) = 23)] at hpk
    injection hpk with hpk'
    rw [hproj, ← hpk']
  · intro h23
    rw [if_pos h23] at hpk
    exact ⟨pk, hpk, hproj⟩

/-- Claim C7 (witness): a concrete block with 22 collected attribute lines
parses with protection key 0, and one with 23 collected lines parses with
the protection key taken from its 22nd line (`B: 9 kB`, value 9). -/
theorem C7_witness :
    Option.map Map.protection_key (mapOf (parse_from_line_iterator
      ("1000-2000 r--p 00000000 00:00 0" :: attrBlock22))) = some 0
    ∧ ∃ n, get_number (attrBlock23.getD 21 "") = .ok n ∧
        Option.map Map.protection_key (mapOf (parse_from_line_iterator
          ("1000-2000 r--p 00000000 00:00 0" :: attrBlock23))) = some n := by
  constructor
  · exact (C7_protection_key "1000-2000 r--p 00000000 00:00 0" attrBlock22
      attrBlock22 [] (by rfl) (by rfl)).1 (by rfl)
  · exact (C7_protection_key "1000-2000 r--p 00000000 00:00 0" attrBlock23
      attrBlock23 [] (by rfl) (by rfl)).2 (by rfl)

/-- Claim C10: for every header line whose device token splits into two
valid hexadecimal components, the stored device_major and device_minor equal
the parsed 64-bit values reduced modulo 2^32 (the `as u32` casts):
components exceeding 32 bits are silently truncated, never rejected. -/
theorem C10_device_truncation (first : String) (rest : List String)
    (a0 a1 a2 a3 a4 : String) (ni : List String)
    (hsplit : splitWhitespace first = a0 :: a1 :: a2 :: a3 :: a4 :: ni)
    (h : (mapOf (parse_from_line_iterator (first :: rest))).isSome = true) :
    ∃ v0 v1,
      get_hex ((stringSplit (fun c => c = ':') a3).getD 0 "") = .ok v0
      ∧ get_hex ((stringSplit (fun c => c = ':') a3).getD 1 "") = .ok v1
      ∧ Option.map Map.device_major
          (mapOf (parse_from_line_iterator (first :: rest)))
            = some (v0 % 2 ^ 32)
      ∧ Option.map Map.device_minor
          (mapOf (parse_from_line_iterator (first :: rest)))
            = some (v1 % 2 ^ 32) := by
  obtain ⟨m, rem, hr⟩ := mapOf_isSome h
  obtain ⟨f', r', a0', a1', a2', a3', a4', ni', b0, b1, d0, d1, fl, s, e, dM,
    dm, ns, pk, hline, -, hsplit', -, hdev, -, -, -, -, hd0, hd1, -, -, hm⟩ :=
    parse_ok_some_inv hr
  injection hline with hf hrest
  subst hf
  subst hrest
  rw [hsplit] at hsplit'
  injection hsplit' with h0 htl
  injection htl with h1 htl
  injection htl with h2 htl
  injection htl with h3 htl
  subst h3
  refine ⟨dM, dm, ?_, ?_, ?_, ?_⟩
  · rw [hdev]
    exact hd0
  · rw [hdev]
    exact hd1
  · rw [hr, hm]
    rfl
  · rw [hr, hm]
    rfl

/-- Claim C10 (witness): a concrete header whose device token is
`fffffffff:2` — a 36-bit major component — parses successfully, and the
stored device_major is the value reduced modulo 2^32, namely 4294967295. -/
theorem C10_witness :
    (∃ v0 v1,
      get_hex ((stringSplit (fun c => c = ':') "fffffffff:2").getD 0 "")
        = .ok v0
      ∧ get_hex ((stringSplit (fun c => c = ':') "fffffffff:2").getD 1 "")
        = .ok v1
      ∧ Option.map Map.device_major (mapOf (parse_from_line_iterator
          ("1000-2000 r--p 00000000 fffffffff:2 0" :: attrBlock22)))
            = some (v0 % 2 ^ 32)
      ∧ Option.map Map.device_minor (mapOf (parse_from_line_iterator
          ("1000-2000 r--p 00000000 fffffffff:2 0" :: attrBlock22)))
            = some (v1 % 2 ^ 32))
    ∧ Option.map Map.device_major (mapOf (parse_from_line_iterator
        ("1000-2000 r--p 00000000 fffffffff:2 0" :: attrBlock22)))
          = some 4294967295 := by
  constructor
  · exact C10_device_truncation "1000-2000 r--p 00000000 fffffffff:2 0"
      attrBlock22 "1000-2000" "r--p" "00000000" "fffffffff:2" "0" []
      (by rfl) (by rfl)
  · rfl

/-- Claim C5 (counterexample): a header whose address-range component is not
hexadecimal makes the record parser return a recoverable `Err` — the
structural error string of `u64::from_str_radix` — and the snapshot parse
aborts with `Could not parse map: …`; no panic (fatal condition) occurs. -/
theorem C5_counterexample :
    parse_from_line_iterator
      ("zzzz-2000 r--p 00000000 00:00 0" :: attrBlock22)
      = .err "invalid digit found in string"
    ∧ get_maps 1 ("zzzz-2000 r--p 00000000 00:00 0" :: attrBlock22)
      = .err "Could not parse map: invalid digit found in string" := by
  have h1 : parse_from_line_iterator
      ("zzzz-2000 r--p 00000000 00:00 0" :: attrBlock22)
      = .err "invalid digit found in string" := by rfl
  refine ⟨h1, ?_⟩
  rw [get_maps, get_maps_loop_err h1]
  rfl

/-- Claim C5 (amended): a non-hexadecimal address-range or device component
in a header line is treated as a recoverable structural parse error of the
snapshot parse — the record parser returns the `from_str_radix` error as an
`Err` and `get_maps` aborts the snapshot with it — not as an unrecoverable
(fatal) condition. -/
theorem C5_amended_hex_recoverable (pid : Int) (first : String)
    (rest : List String) (a0 a1 a2 a3 a4 : String) (ni : List String)
    (b0 b1 d0 d1 : String) (fl rem : List String) (e : String)
    (hsplit : splitWhitespace first = a0 :: a1 :: a2 :: a3 :: a4 :: ni)
    (hb : stringSplit (fun c => c = '-') a0 = [b0, b1])
    (hd : stringSplit (fun c => c = ':') a3 = [d0, d1])
    (hcf : collectFurther rest = .ok (fl, rem))
    (hlen : ¬ fl.length < 22) :
    (get_hex b0 = .error e →
      parse_from_line_iterator (first :: rest) = .err e
      ∧ get_maps pid (first :: rest)
        = .err ("Could not parse map: " ++ e))
    ∧ (∀ s0 s1, get_hex b0 = .ok s0 → get_hex b1 = .ok s1 →
        get_hex d0 = .error e →
        parse_from_line_iterator (first :: rest) = .err e
        ∧ get_maps pid (first :: rest)
          = .err ("Could not parse map: " ++ e)) := by
  have hne : ¬ first = "" := by
    intro hfe
    have h0 : splitWhitespace "" = ([] : List String) := rfl
    rw [hfe, h0] at hsplit
    cases hsplit
  constructor
  · intro hhex
    have hp : parse_from_line_iterator (first :: rest) = .err e := by
      rw [parse_from_line_iterator]
      simp only [hne, if_false, hsplit, hb, hd, hcf, hlen, hhex, ite_false]
    exact ⟨hp, by rw [get_maps, get_maps_loop_err hp]⟩
  · intro s0 s1 hs0 hs1 hhex
    have hp : parse_from_line_iterator (first :: rest) = .err e := by
      rw [parse_from_line_iterator]
      simp only [hne, if_false, hsplit, hb, hd, hcf, hlen, hs0, hs1, hhex,
        ite_false]
    exact ⟨hp, by rw [get_maps, get_maps_loop_err hp]⟩

/-- Claim C5 (witness): at a concrete header whose device major component is
`gg` — not hexadecimal — the amended theorem yields the recoverable
structural error at both the record and the snapshot level. -/
theorem C5_witness :
    parse_from_line_iterator
      ("1000-2000 r--p 00000000 gg:2 0" :: attrBlock22)
      = .err "invalid digit found in string"
    ∧ get_maps 3 ("1000-2000 r--p 00000000 gg:2 0" :: attrBlock22)
      = .err ("Could not parse map: " ++ "invalid digit found in string") := by
  exact (C5_amended_hex_recoverable 3 "1000-2000 r--p 00000000 gg:2 0"
    attrBlock22 "1000-2000" "r--p" "00000000" "gg:2" "0" []
    "1000" "2000" "gg" "2" attrBlock22 [] "invalid digit found in string"
    (by rfl) (by rfl) (by rfl) (by rfl) (by decide)).2
    4096 8192 (by rfl) (by rfl) (by rfl)

/-- The record that the header `1000-2000 r--p 00000000 00:00 0` followed by
`attrBlock22` parses to (all numeric attributes are 7). -/
def sampleMap7 : Map :=
  { start := 4096, end_ := 8192, flags := "r--p", hex := "00000000",
    device_major := 0, device_minor := 0, number := "0", name := "",
    size := 7, kernel_page_size := 7, mmu_page_size := 7, rss := 7, pss := 7,
    shared_clean := 7, shared_dirty := 7, private_clean := 7,
    private_dirty := 7, referenced := 7, anonymous := 7, lazy_free := 7,
    anon_huge_pages := 7, shmem_pmd_mapped := 7, file_pmd_mapped := 7,
    shared_huge_tlb := 7, private_huge_tlb := 7, swap := 7, swap_pss := 7,
    locked := 7, thp_eligible := true, protection_key := 0,
    vmflags := "VmFlags: rd" }

/-- Claim C6: if, after successfully parsing any number of records, the next
record fails to parse with a structural error, the snapshot parse returns
that error wrapped as `Could not parse map: …` — it never returns the
records parsed before the failure. -/
theorem C6_snapshot_error_propagation (pid : Int) (lines : List String)
    (ms : List Map) (rest : List String) (e : String)
    (hrec : ParsesRecords lines ms rest)
    (herr : parse_from_line_iterator rest = .err e) :
    get_maps pid lines = .err ("Could not parse map: " ++ e) := by
  have hl : get_maps_loop lines [] = .err ("Could not parse map: " ++ e) := by
    rw [get_maps_loop_records hrec [], get_maps_loop_err herr]
  rw [get_maps, hl]

/-- Claim C6 (witness): one well-formed block followed by a malformed header
(too few tokens) makes the whole snapshot parse fail with the record's
structural error — the successfully parsed first record is discarded. -/
theorem C6_witness :
    get_maps 5 (("1000-2000 r--p 00000000 00:00 0" :: attrBlock22)
      ++ ["badline"])
      = .err ("Could not parse map: " ++ "Found strange first line: badline")
      := by
  have hrec : ParsesRecords
      (("1000-2000 r--p 00000000 00:00 0" :: attrBlock22) ++ ["badline"])
      [sampleMap7] ["badline"] :=
    ParsesRecords.cons (by rfl) (ParsesRecords.nil ["badline"])
  exact C6_snapshot_error_propagation 5 _ [sampleMap7] ["badline"]
    "Found strange first line: badline" hrec (by rfl)

/-- Claim C9: if the next line exists but is empty, the record parser
returns the clean no-record signal `Ok(None)` rather than an error, so a
snapshot parse over text containing an empty line between blocks succeeds
and silently returns only the records preceding the first empty line. -/
theorem C9_empty_line_ends_snapshot (pid : Int) (lines : List String)
    (ms : List Map) (post : List String)
    (hrec : ParsesRecords lines ms ("" :: post)) :
    parse_from_line_iterator ("" :: post) = .ok (none, post)
    ∧ get_maps pid lines = .ok ⟨pid, ms⟩ := by
  have hp : parse_from_line_iterator ("" :: post) = .ok (none, post) := by
    rw [parse_from_line_iterator]
    rw [if_pos rfl]
  refine ⟨hp, ?_⟩
  have hl : get_maps_loop lines [] = .ok ms := by
    rw [get_maps_loop_records hrec [], get_maps_loop_none hp]
    rw [List.nil_append]
  rw [get_maps, hl]

/-- Claim C9 (witness): a well-formed block, an empty line, then a line that
could never complete a record: the snapshot parse succeeds and returns only
the record before the empty line. -/
theorem C9_witness :
    get_maps 2 (("1000-2000 r--p 00000000 00:00 0" :: attrBlock22)
      ++ [""] ++ ["junk after the empty line"])
      = .ok ⟨2, [sampleMap7]⟩ := by
  have hrec : ParsesRecords
      (("1000-2000 r--p 00000000 00:00 0" :: attrBlock22)
        ++ [""] ++ ["junk after the empty line"])
      [sampleMap7] ("" :: ["junk after the empty line"]) :=
    ParsesRecords.cons (by rfl)
      (ParsesRecords.nil ("" :: ["junk after the empty line"]))
  exact (C9_empty_line_ends_snapshot 2 _ [sampleMap7]
    ["junk after the empty line"] hrec).2

end Mapwatcher
